import Mathlib

/-
Shallow embedding of the release-notes generator (the action's main module).
Pure helpers, the classifier, the collector's pagination loop, the release
upsert and the release-window resolver are translated function by function;
the platform client is modelled by explicit inputs (the page sequence the
search returns, the tag list, a timestamp oracle for `tagCommitDateISO`,
and the outcome of the release lookup).
-/

namespace ReleaseNotes

/-- JS `String.prototype.toLowerCase` on the ASCII strings this program
handles: lower each character. -/
def jsToLower (s : String) : String := String.mk (s.data.map Char.toLower)

/-- JS truthiness of a string: only the empty string is falsy. -/
def strTruthy (s : String) : Bool := s != ""

/-- JS truthiness of a nullable string (`null`/`undefined` and `""` falsy). -/
def optStrTruthy : Option String → Bool
  | none => false
  | some s => strTruthy s

/-- JS `pat.isPrefixOf`-style test used for `String.prototype.startsWith`. -/
def jsStartsWith (s pat : String) : Bool := pat.data.isPrefixOf s.data

/-- Remove the first occurrence of `pat` from a character list; this is
`s.replace(pat, "")` with a plain-string pattern, which in JS replaces only
the first occurrence. -/
def removeFirstOcc (pat : List Char) : List Char → List Char
  | [] => []
  | c :: rest =>
    if pat.isPrefixOf (c :: rest) then (c :: rest).drop pat.length
    else c :: removeFirstOcc pat rest

/-- JS `s.replace(pat, "")` for a plain-string pattern. -/
def jsReplaceFirst (s pat : String) : String :=
  String.mk (removeFirstOcc pat.data s.data)

/-- Property read on a JSON-style string map (`m[k]`, `undefined` ↦ none).
The source's section maps are plain parsed-JSON objects. -/
def mapGet (m : List (String × String)) (k : String) : Option String :=
  (m.find? (fun p => p.1 == k)).map (fun p => p.2)

/-- `DEFAULT_LABEL_MAP` from the source, in source entry order. -/
def DEFAULT_LABEL_MAP : List (String × String) :=
  [("bug", "Fixed"), ("fix", "Fixed"), ("bugfix", "Fixed"),
   ("enhancement", "Added"), ("feat", "Added"), ("feature", "Added"),
   ("chore", "Changed"), ("refactor", "Changed"), ("deps", "Changed"),
   ("dependencies", "Changed"),
   ("docs", "Docs"), ("documentation", "Docs")]

/-- `CONVENTIONAL_PREFIX_MAP` from the source. -/
def CONVENTIONAL_PREFIX_MAP : List (String × String) :=
  [("feat", "Added"), ("fix", "Fixed"), ("chore", "Changed"),
   ("refactor", "Changed"), ("docs", "Docs")]

/-- `DEPS_LABELS` from the source (a JS `Set`; membership via `contains`). -/
def DEPS_LABELS : List String := ["dependencies", "deps", "dependabot"]

/-- The scan loop of `bucketForLabels`: walk the (already lowercased) label
names in order; `if (sectionMap[name]) return sectionMap[name]` — a present
entry with a falsy (empty) value is skipped by JS truthiness. -/
def bucketScan (m : List (String × String)) : List String → String
  | [] => "Other"
  | n :: rest =>
    match mapGet m n with
    | some v => if strTruthy v then v else bucketScan m rest
    | none => bucketScan m rest

/-- `bucketForLabels(labelNames, sectionMap)`: lowercase every label, then
return the first truthy map hit, else "Other". -/
def bucketForLabels (labelNames : List String) (sectionMap : List (String × String)) : String :=
  bucketScan sectionMap (labelNames.map jsToLower)

/-- JS `\w` (ASCII word character). -/
def isWordChar (c : Char) : Bool := c.isAlphanum || c == '_'

/-- JS `.` in a regex without the dot-all flag: any character except a line
terminator (the ASCII ones suffice for this model). -/
def isDotChar (c : Char) : Bool := c != '\n' && c != '\r'

/-- Does the list begin with the two characters `)` then `:`? -/
def closeThenColon : List Char → Bool
  | ')' :: ':' :: _ => true
  | _ => false

/-- After an opening parenthesis, can the regex fragment matching the scope
group followed by a colon succeed: is there a non-empty run of dot-matched
characters followed by the two characters `)` and `:`? -/
def scopeThenColon : List Char → Bool
  | [] => false
  | c :: rest => isDotChar c && (closeThenColon rest || scopeThenColon rest)

/-- The anchored regex of `bucketFromConventionalTitle`: a leading non-empty
run of word characters, an optional parenthesised scope, then a colon.
Returns the captured word on success. The greedy word run cannot backtrack
usefully (neither a parenthesis nor a colon is a word character), so the
capture is the maximal word-character run. -/
def matchConvWord (title : List Char) : Option (List Char) :=
  let word := title.takeWhile isWordChar
  let rest := title.dropWhile isWordChar
  if word.isEmpty then none
  else
    match rest with
    | ':' :: _ => some word
    | '(' :: r => if scopeThenColon r then some word else none
    | _ => none

/-- `bucketFromConventionalTitle(title)`: regex match, then table lookup on
the lowercased captured word, with `|| null` collapsing a falsy hit. -/
def bucketFromConventionalTitle (title : String) : Option String :=
  match matchConvWord title.data with
  | none => none
  | some w =>
    match mapGet CONVENTIONAL_PREFIX_MAP (jsToLower (String.mk w)) with
    | some v => if strTruthy v then some v else none
    | none => none

/-- The JS-truthy reading of a map entry: the value when the key is present
with a non-empty value, `none` otherwise — exactly the guard
`if (sectionMap[name])` tests. -/
def truthyGet (m : List (String × String)) (k : String) : Option String :=
  match mapGet m k with
  | some v => if strTruthy v then some v else none
  | none => none

/-- A normalized change-request record, as produced by the collector. -/
structure PR where
  number : Int
  title : String
  user : String
  labels : List String

/-- The classifier's filter inputs (already lowercased comma lists plus the
dependency flag), as passed by `run`. -/
structure FilterCfg where
  includeLabels : List String
  excludeLabels : List String
  ignoreDeps : Bool

/-- `shouldExcludePR(pr, { includeLabels, excludeLabels, ignoreDeps })`. -/
def shouldExcludePR (pr : PR) (cfg : FilterCfg) : Bool :=
  let labels := pr.labels.map jsToLower
  if cfg.ignoreDeps && labels.length > 0 && labels.all (fun l => DEPS_LABELS.contains l) then
    true
  else if cfg.excludeLabels.length > 0 && labels.any (fun l => cfg.excludeLabels.contains l) then
    true
  else if cfg.includeLabels.length > 0 && !(labels.any (fun l => cfg.includeLabels.contains l)) then
    true
  else
    false

/-- The per-record section choice in `run`'s grouping loop: label bucket
first; when it lands in "Other" and the conventional-commits switch is on,
`bucketFromConventionalTitle(pr.title) || "Other"`. -/
def assignSection (labels : List String) (title : String)
    (sectionMap : List (String × String)) (useConventional : Bool) : String :=
  let b := bucketForLabels labels sectionMap
  if b == "Other" && useConventional then
    (bucketFromConventionalTitle title).getD "Other"
  else b

/-- A label value as the search API may deliver it: a plain string or an
object whose `name` field may be absent. -/
inductive RawLabel where
  | str (s : String)
  | obj (name : Option String)

/-- One item of a search-API page, before normalization: `item.number`,
`item.title`, `item.user?.login`, and the raw `item.labels` field (`none`
models a non-array value). -/
structure RawItem where
  number : Int
  title : String
  login : Option String
  rawLabels : Option (List RawLabel)

/-- The collector's label normalization: keep strings as-is, take `name`
from objects, then `.filter(Boolean)` drops empty and missing values. -/
def normalizeLabels : Option (List RawLabel) → List String
  | none => []
  | some ls =>
    ls.filterMap (fun l =>
      match l with
      | .str s => if strTruthy s then some s else none
      | .obj (some n) => if strTruthy n then some n else none
      | .obj none => none)

/-- Build the normalized record pushed by the collector loop, with
`item.user?.login || "unknown"`. -/
def normalizeItem (it : RawItem) : PR :=
  { number := it.number
    title := it.title
    user :=
      match it.login with
      | some s => if strTruthy s then s else "unknown"
      | none => "unknown"
    labels := normalizeLabels it.rawLabels }

/-- The inner `for` loop over one page's items: push each normalized record
and break as soon as the accumulator reaches `maxPRs`. -/
def pushItems (maxPRs : Nat) : List RawItem → List PR → List PR
  | [], out => out
  | it :: rest, out =>
    let out' := out ++ [normalizeItem it]
    if maxPRs ≤ out'.length then out' else pushItems maxPRs rest out'

/-- The collector's `while` loop over successive search pages: stop when the
accumulator has reached `maxPRs`, when a page is empty, or after a page
shorter than the fixed page size of 100. The input list is the sequence of
pages the API would return. -/
def collectPages (maxPRs : Nat) : List (List RawItem) → List PR → List PR
  | [], out => out
  | items :: restPages, out =>
    if maxPRs ≤ out.length then out
    else if items.length == 0 then out
    else
      let out' := pushItems maxPRs items out
      if items.length < 100 then out' else collectPages maxPRs restPages out'

/-- The comparator `(a, b) => a.number - b.number` as an order test. -/
def prLE (a b : PR) : Bool := a.number ≤ b.number

/-- `searchMergedPRs`: accumulate pages, then sort ascending by number
(JS `Array.prototype.sort` is stable; modelled by a stable merge sort). -/
def searchMergedPRs (pages : List (List RawItem)) (maxPRs : Nat) : List PR :=
  (collectPages maxPRs pages []).mergeSort prLE

/-- A platform release record (`id` the platform key, keyed to a tag). -/
structure Release where
  id : Nat
  tag : String
  body : String
  draft : Bool

/-- Failures a platform call can raise: a lookup miss or a transport-level
(network) error. -/
inductive ApiError where
  | notFound
  | network (msg : String)

/-- The platform's release table for one repository. -/
abbrev ReleaseStore := List Release

/-- `repos.getReleaseByTag` under normal platform operation: the release
whose tag matches, else a not-found error. -/
def getReleaseByTag (store : ReleaseStore) (tag : String) : Except ApiError Release :=
  match store.find? (fun r => r.tag == tag) with
  | some r => Except.ok r
  | none => Except.error ApiError.notFound

/-- `repos.updateRelease`: rewrite body and draft flag of the release with
the given id, in place. -/
def updateRelease (store : ReleaseStore) (rid : Nat) (body : String) (draft : Bool) : ReleaseStore :=
  store.map (fun r => if r.id == rid then { r with body := body, draft := draft } else r)

/-- A platform id unused by the store, for created releases. -/
def freshId (store : ReleaseStore) : Nat :=
  store.foldr (fun r m => max m (r.id + 1)) 0

/-- `repos.createRelease`: append a new record for the tag. -/
def createRelease (store : ReleaseStore) (tag body : String) (draft : Bool) : ReleaseStore :=
  store ++ [{ id := freshId store, tag := tag, body := body, draft := draft }]

/-- What the release sink reports and leaves behind. -/
structure UpsertResult where
  action : String
  store : ReleaseStore

/-- `upsertReleaseByTag`: the whole body is one `try`/`catch`; `lookupResult`
is the outcome of the `getReleaseByTag` call. Success updates in place and
reports "updated"; the `catch` arm — reached by ANY thrown error, lookup
miss and network failure alike — creates and reports "created". -/
def upsertReleaseByTag (lookupResult : Except ApiError Release) (store : ReleaseStore)
    (tag body : String) (draft : Bool) : UpsertResult :=
  match lookupResult with
  | Except.ok existing =>
    { action := "updated", store := updateRelease store existing.id body draft }
  | Except.error _ =>
    { action := "created", store := createRelease store tag body draft }

/-- The upsert run against a normally-operating platform: the lookup result
is what `getReleaseByTag` returns on the current store. -/
def upsertOnline (store : ReleaseStore) (tag body : String) (draft : Bool) : UpsertResult :=
  upsertReleaseByTag (getReleaseByTag store tag) store tag body draft

/-- Number of release records keyed to a tag. -/
def countForTag (store : ReleaseStore) (tag : String) : Nat :=
  (store.filter (fun r => r.tag == tag)).length

/-- The trigger context fields `run` reads from the platform context. -/
structure TriggerCtx where
  eventName : String
  refType : Option String
  refName : Option String
  ref : Option String

/-- The tag-push detection at the top of `run`: on a push of a tag ref,
`currentTag = refName || (ref || "").replace("refs/tags/", "")`. -/
def tagPushTag (ctx : TriggerCtx) : Option String :=
  if ctx.eventName == "push" &&
      (ctx.refType == some "tag" || jsStartsWith (ctx.ref.getD "") "refs/tags/") then
    some (match ctx.refName with
      | some n => if strTruthy n then n else jsReplaceFirst (ctx.ref.getD "") "refs/tags/"
      | none => jsReplaceFirst (ctx.ref.getD "") "refs/tags/")
  else none

/-- The resolver's collaborator outcomes: `tagDate t` is what
`tagCommitDateISO` returns for tag `t` (calls assumed to succeed — a throw
aborts the whole run), and `lookbackISO` is `isoDaysAgo(sinceDays)` at this
run's clock. -/
structure ResolverEnv where
  tagDate : String → String
  lookbackISO : String

/-- The resolver's outputs, plus whether the recoverable tag-not-found
warning was logged. -/
structure ReleaseWindow where
  currentTag : Option String
  previousTag : Option String
  baselineISO : String
  warnedNotFound : Bool

/-- The release-window block of `run` over the fetched tag names: locate a
pushed tag in history for its next-older neighbour, else fall back to
`since_days`; on non-tag runs use the newest tag (and its own date) as the
baseline. -/
def resolveWindow (env : ResolverEnv) (ctx : TriggerCtx) (tags : List String) : ReleaseWindow :=
  let ct0 := tagPushTag ctx
  if optStrTruthy ct0 then
    let ct := ct0.getD ""
    match tags.findIdx? (fun t => t == ct) with
    | some i =>
      match tags[i + 1]? with
      | some p =>
        { currentTag := some ct, previousTag := some p,
          baselineISO := env.tagDate p, warnedNotFound := false }
      | none =>
        { currentTag := some ct, previousTag := none,
          baselineISO := env.lookbackISO, warnedNotFound := false }
    | none =>
      { currentTag := some ct, previousTag := none,
        baselineISO := env.lookbackISO, warnedNotFound := true }
  else
    match tags with
    | t0 :: t1 :: _ =>
      { currentTag := some t0, previousTag := some t1,
        baselineISO := env.tagDate t0, warnedNotFound := false }
    | [t0] =>
      { currentTag := some t0, previousTag := none,
        baselineISO := env.tagDate t0, warnedNotFound := false }
    | [] =>
      { currentTag := none, previousTag := none,
        baselineISO := env.lookbackISO, warnedNotFound := false }

/-- The rendered document's title line:
`eventName === "push" && currentTag ? Release <tag> : Release notes (unreleased)`. -/
def titleLine (eventName : String) (currentTag : Option String) : String :=
  if eventName == "push" && optStrTruthy currentTag then
    "## Release " ++ currentTag.getD ""
  else
    "## Release notes (unreleased)"

/-- The guard on the release sink inside `if (createRelease)`: the upsert
runs exactly when `eventName === "push" && currentTag`. -/
def releaseSinkGuard (eventName : String) (currentTag : Option String) : Bool :=
  eventName == "push" && optStrTruthy currentTag

/-- A concrete resolver environment for counterexamples and witnesses:
distinct timestamps per tag, distinct from the lookback fallback. -/
def testEnv : ResolverEnv :=
  { tagDate := fun t =>
      if t = "v2" then "2024-02-01T00:00:00Z"
      else if t = "v1" then "2024-01-01T00:00:00Z"
      else if t = "v1.0" then "2023-06-01T00:00:00Z"
      else "1970-01-01T00:00:00Z"
    lookbackISO := "2024-03-01T00:00:00Z" }

/-- A manual (workflow-dispatch) trigger. -/
def manualCtx : TriggerCtx :=
  { eventName := "workflow_dispatch", refType := none, refName := none, ref := none }

/-- A push of the tag `v9`. -/
def pushCtxV9 : TriggerCtx :=
  { eventName := "push", refType := some "tag", refName := some "v9",
    ref := some "refs/tags/v9" }

/-- A push of a branch ref (not a tag) in a repository that has tags. -/
def branchPushCtx : TriggerCtx :=
  { eventName := "push", refType := some "branch", refName := some "main",
    ref := some "refs/heads/main" }

/-- An existing release record for tag `v1`. -/
def rel1 : Release := { id := 1, tag := "v1", body := "old notes", draft := true }

end ReleaseNotes
namespace ReleaseNotes

/-- C1 counterexample: on a manual run over the tag history `[v2, v1]`,
the resolver sets `previousTag = v1`, yet the baseline timestamp is `v2`'s
resolved commit date, not `v1`'s — refuting the claim that whenever
`previousTag` is set the baseline equals `previousTag`'s timestamp. -/
theorem c1_baseline_counterexample :
    (resolveWindow testEnv manualCtx ["v2", "v1"]).previousTag = some "v1" ∧
    (resolveWindow testEnv manualCtx ["v2", "v1"]).baselineISO = testEnv.tagDate "v2" ∧
    (resolveWindow testEnv manualCtx ["v2", "v1"]).baselineISO ≠ testEnv.tagDate "v1" :=
  ⟨rfl, rfl, by decide⟩

/-- C2 counterexample: on a push of tag `v9` absent from the history
`[v2, v1]`, the resolver logs the warning but keeps `v9` as `currentTag`,
derives no previous tag and uses the lookback fallback baseline — it does
not run the non-tag-push logic, which would have selected `v2` with
previous tag `v1` and `v2`'s commit date as baseline. -/
theorem c2_fallback_counterexample :
    (resolveWindow testEnv pushCtxV9 ["v2", "v1"]).warnedNotFound = true ∧
    (resolveWindow testEnv pushCtxV9 ["v2", "v1"]).currentTag = some "v9" ∧
    (resolveWindow testEnv manualCtx ["v2", "v1"]).currentTag = some "v2" ∧
    (some "v9" : Option String) ≠ some "v2" ∧
    (resolveWindow testEnv pushCtxV9 ["v2", "v1"]).previousTag = none ∧
    (resolveWindow testEnv pushCtxV9 ["v2", "v1"]).baselineISO = testEnv.lookbackISO ∧
    testEnv.lookbackISO ≠ testEnv.tagDate "v2" :=
  ⟨rfl, rfl, rfl, by decide, rfl, rfl, by decide⟩

/-- C3 counterexample: a network failure of the get-release-by-tag call —
not a lookup miss, and with a release for the tag already present — lands
in the `catch` arm, reports "created" and appends a second record for the
same tag. -/
theorem c3_network_create_counterexample :
    countForTag [rel1] "v1" = 1 ∧
    (upsertReleaseByTag (Except.error (ApiError.network "ETIMEDOUT")) [rel1] "v1" "b" true).action
      = "created" ∧
    countForTag
      (upsertReleaseByTag (Except.error (ApiError.network "ETIMEDOUT")) [rel1] "v1" "b" true).store
      "v1" = 2 :=
  ⟨by decide, rfl, by decide⟩

/-- C3 amended: inside the release upsert every lookup failure — lookup
miss and network error alike — takes the create branch (appending one more
record for the tag), and only a successful lookup takes the update branch. -/
theorem c3_amended_catch_all_creates :
    (∀ (e : ApiError) (store : ReleaseStore) (tag body : String) (draft : Bool),
      (upsertReleaseByTag (Except.error e) store tag body draft).action = "created" ∧
      countForTag (upsertReleaseByTag (Except.error e) store tag body draft).store tag
        = countForTag store tag + 1) ∧
    (∀ (r : Release) (store : ReleaseStore) (tag body : String) (draft : Bool),
      (upsertReleaseByTag (Except.ok r) store tag body draft).action = "updated") := by
  constructor
  · intro e store tag body draft
    refine ⟨rfl, ?_⟩
    simp [upsertReleaseByTag, createRelease, countForTag, List.filter_append]
  · intro r store tag body draft
    rfl

/-- C4: on a push of a branch ref in a repository with tag history
`[v1.0]`, the resolver assigns the latest tag as `currentTag`, so the title
guard `eventName === "push" && currentTag` fires and the document is titled
`Release v1.0` instead of `Release notes (unreleased)`; the release-sink
guard fires on the same condition. -/
theorem c4_branch_push_title_bug :
    (resolveWindow testEnv branchPushCtx ["v1.0"]).currentTag = some "v1.0" ∧
    titleLine "push" (resolveWindow testEnv branchPushCtx ["v1.0"]).currentTag
      = "## Release v1.0" ∧
    titleLine "push" (resolveWindow testEnv branchPushCtx ["v1.0"]).currentTag
      ≠ "## Release notes (unreleased)" ∧
    releaseSinkGuard "push" (resolveWindow testEnv branchPushCtx ["v1.0"]).currentTag = true :=
  ⟨rfl, rfl, by decide, rfl⟩

/-- C10: a record with an empty label list is never dropped by the
dependency-only check — the `labels.length > 0` conjunct guards the vacuous
"all labels are dependency labels" case — so with empty include/exclude
sets it is retained for either value of the ignore-dependency flag, and the
label scan classifies it into "Other" under every section map. -/
theorem c10_empty_labels_retained (n : Int) (t u : String) (ignoreDeps : Bool)
    (m : List (String × String)) :
    shouldExcludePR ⟨n, t, u, []⟩ ⟨[], [], ignoreDeps⟩ = false ∧
    bucketForLabels [] m = "Other" := by
  refine ⟨?_, rfl⟩
  simp [shouldExcludePR]

end ReleaseNotes
namespace ReleaseNotes

theorem countForTag_map_tag_preserving (f : Release → Release)
    (hf : ∀ r, (f r).tag = r.tag) (store : ReleaseStore) (t : String) :
    countForTag (store.map f) t = countForTag store t := by
  induction store with
  | nil => rfl
  | cons r rest ih =>
    simp only [List.map_cons, countForTag, List.filter_cons, hf] at *
    by_cases ht : (r.tag == t) = true
    · simp [ht, ih]
    · simp [ht, ih]

theorem countForTag_updateRelease (store : ReleaseStore) (rid : Nat) (body : String)
    (draft : Bool) (t : String) :
    countForTag (updateRelease store rid body draft) t = countForTag store t := by
  apply countForTag_map_tag_preserving
  intro r
  by_cases h : (r.id == rid) = true
  · simp [h]
  · simp [h]

/-- C5: release-sink idempotency — when a single release keyed by the tag
already exists, a further run of the upsert against the normally-operating
platform finds it, takes the update branch, reports "updated", and leaves
exactly one release record for the tag. -/
theorem c5_upsert_idempotent (store : ReleaseStore) (tag body : String) (draft : Bool)
    (h : countForTag store tag = 1) :
    (upsertOnline store tag body draft).action = "updated" ∧
    countForTag (upsertOnline store tag body draft).store tag = 1 := by
  cases hf : store.find? (fun r => r.tag == tag) with
  | none =>
    exfalso
    have hall := List.find?_eq_none.mp hf
    have : store.filter (fun r => r.tag == tag) = [] := by
      apply List.filter_eq_nil_iff.mpr
      intro a ha
      exact hall a ha
    simp [countForTag, this] at h
  | some r =>
    constructor
    · simp [upsertOnline, getReleaseByTag, hf, upsertReleaseByTag]
    · simp [upsertOnline, getReleaseByTag, hf, upsertReleaseByTag,
        countForTag_updateRelease]
      exact h

/-- C5 witness: with the store holding the single release `rel1` for tag
`v1`, re-running the upsert reports "updated" and keeps one record. -/
theorem c5_upsert_idempotent_witness :
    countForTag [rel1] "v1" = 1 ∧
    ((upsertOnline [rel1] "v1" "new notes" true).action = "updated" ∧
      countForTag (upsertOnline [rel1] "v1" "new notes" true).store "v1" = 1) :=
  ⟨by decide, c5_upsert_idempotent [rel1] "v1" "new notes" true (by decide)⟩

/-- C6 counterexample: with the section map holding the single entry
`bug ↦ ""`, the label `bug` is present in the map, yet the scan skips the
falsy value and the record is bucketed into "Other" — refuting the claim
that for every section map the first label present in the map decides the
section (here it would decide the section `""`). -/
theorem c6_truthiness_counterexample :
    mapGet [("bug", "")] "bug" = some "" ∧
    bucketForLabels ["bug"] [("bug", "")] = "Other" ∧
    ("Other" : String) ≠ "" :=
  ⟨rfl, rfl, by decide⟩

theorem bucketScan_cons (m : List (String × String)) (n : String) (ns : List String) :
    bucketScan m (n :: ns) =
      match truthyGet m n with
      | some v => v
      | none => bucketScan m ns := by
  simp only [bucketScan, truthyGet]
  cases h : mapGet m n with
  | none => rfl
  | some v =>
    by_cases hv : strTruthy v = true
    · simp [hv]
    · simp [hv]
    
/-- C6 amended: the record's labels are scanned case-insensitively in
label-list order; the first label whose map entry is present with a
non-empty value decides the section (an entry holding the empty string is
skipped, by JS truthiness); if no label has such an entry the record is
assigned "Other". -/
theorem c6_first_truthy_label_wins (m : List (String × String)) :
    (∀ labels : List String,
      (∀ l ∈ labels, truthyGet m (jsToLower l) = none) →
      bucketForLabels labels m = "Other") ∧
    (∀ (pre : List String) (l : String) (post : List String) (v : String),
      (∀ p ∈ pre, truthyGet m (jsToLower p) = none) →
      truthyGet m (jsToLower l) = some v →
      bucketForLabels (pre ++ l :: post) m = v) := by
  constructor
  · intro labels hall
    induction labels with
    | nil => rfl
    | cons a rest ih =>
      have ha : truthyGet m (jsToLower a) = none := hall a (by simp)
      have hrest : ∀ l ∈ rest, truthyGet m (jsToLower l) = none := by
        intro l hl
        exact hall l (by simp [hl])
      simp only [bucketForLabels, List.map_cons] at *
      rw [bucketScan_cons, ha]
      exact ih hrest
  · intro pre l post v hpre hl
    induction pre with
    | nil =>
      simp only [bucketForLabels, List.nil_append, List.map_cons]
      rw [bucketScan_cons, hl]
    | cons p rest ih =>
      have hp : truthyGet m (jsToLower p) = none := hpre p (by simp)
      have hrest : ∀ q ∈ rest, truthyGet m (jsToLower q) = none := by
        intro q hq
        exact hpre q (by simp [hq])
      simp only [bucketForLabels, List.cons_append, List.map_cons] at *
      rw [bucketScan_cons, hp]
      exact ih hrest

/-- C6 amended witness: the uppercase label `BUG` has the truthy default
entry `bug ↦ Fixed`, and no labels precede it, so the record lands in
Fixed. -/
theorem c6_first_truthy_label_wins_witness :
    bucketForLabels ["BUG"] DEFAULT_LABEL_MAP = "Fixed" :=
  (c6_first_truthy_label_wins DEFAULT_LABEL_MAP).2 [] "BUG" [] "Fixed"
    (by intro p hp; cases hp) (by decide)

/-- C8: a record whose non-empty label list consists solely of dependency
labels (case-insensitively) is dropped by the filter exactly when the
ignore-dependency flag is set, given empty include and exclude sets. -/
theorem c8_dependency_only_excluded (pr : PR) (hne : pr.labels ≠ [])
    (hdeps : ∀ l ∈ pr.labels, DEPS_LABELS.contains (jsToLower l) = true) :
    shouldExcludePR pr ⟨[], [], true⟩ = true ∧
    shouldExcludePR pr ⟨[], [], false⟩ = false := by
  constructor
  · have h1 : 0 < pr.labels.length := List.length_pos.mpr hne
    have h2 : ∀ x ∈ pr.labels, jsToLower x ∈ DEPS_LABELS := by
      intro x hx
      simpa using hdeps x hx
    simp [shouldExcludePR]
    exact ⟨h1, h2⟩
  · simp [shouldExcludePR]

/-- C8 witness: a record labelled only `Dependencies` is dropped with the
flag set and retained with it clear. -/
theorem c8_dependency_only_excluded_witness :
    shouldExcludePR ⟨7, "Bump lodash", "dependabot", ["Dependencies"]⟩ ⟨[], [], true⟩ = true ∧
    shouldExcludePR ⟨7, "Bump lodash", "dependabot", ["Dependencies"]⟩ ⟨[], [], false⟩ = false :=
  c8_dependency_only_excluded ⟨7, "Bump lodash", "dependabot", ["Dependencies"]⟩
    (by decide) (by decide)

end ReleaseNotes
namespace ReleaseNotes

theorem convMap_values_truthy (k v : String)
    (h : mapGet CONVENTIONAL_PREFIX_MAP k = some v) : strTruthy v = true := by
  rw [mapGet] at h
  cases hf : List.find? (fun p => p.1 == k) CONVENTIONAL_PREFIX_MAP with
  | none => rw [hf] at h; cases h
  | some p =>
    rw [hf] at h
    simp at h
    subst h
    have hmem := List.mem_of_find?_eq_some hf
    fin_cases hmem <;> decide

/-- C7: the title-prefix rule runs only when the label bucket is "Other"
and the fallback switch is on; a leading word-plus-optional-scope-colon
prefix whose lowercased word is in the fixed prefix table overrides the
section, a title without such a prefix keeps "Other"; and the record titled
`fix(auth): correct token refresh` with no matching label lands in Fixed
when the fallback is enabled. -/
theorem c7_conventional_fallback (labels : List String) (title : String)
    (m : List (String × String)) (useConv : Bool) :
    ((bucketForLabels labels m = "Other" ∧ useConv = true) →
      assignSection labels title m useConv = (bucketFromConventionalTitle title).getD "Other") ∧
    (¬(bucketForLabels labels m = "Other" ∧ useConv = true) →
      assignSection labels title m useConv = bucketForLabels labels m) ∧
    (∀ w v, matchConvWord title.data = some w →
      mapGet CONVENTIONAL_PREFIX_MAP (jsToLower (String.mk w)) = some v →
      bucketFromConventionalTitle title = some v) ∧
    (matchConvWord title.data = none → bucketFromConventionalTitle title = none) ∧
    assignSection ["foo"] "fix(auth): correct token refresh" DEFAULT_LABEL_MAP true = "Fixed" := by
  refine ⟨?_, ?_, ?_, ?_, by decide⟩
  · rintro ⟨hb, hc⟩
    simp [assignSection, hb, hc]
  · intro h
    have hcond : (bucketForLabels labels m == "Other" && useConv) = false := by
      by_cases hb : bucketForLabels labels m = "Other"
      · by_cases hc : useConv = true
        · exact absurd ⟨hb, hc⟩ h
        · simp [Bool.eq_false_iff.mpr hc]
      · simp [hb]
    simp [assignSection, hcond]
  · intro w v hw hv
    have ht := convMap_values_truthy _ _ hv
    simp [bucketFromConventionalTitle, hw, hv, ht]
  · intro hw
    simp [bucketFromConventionalTitle, hw]

/-- C7 witness: the scenario record (title `fix(auth): correct token
refresh`, sole label `foo` matching nothing, fallback enabled) takes the
fallback path. -/
theorem c7_conventional_fallback_witness :
    assignSection ["foo"] "fix(auth): correct token refresh" DEFAULT_LABEL_MAP true
      = (bucketFromConventionalTitle "fix(auth): correct token refresh").getD "Other" :=
  (c7_conventional_fallback ["foo"] "fix(auth): correct token refresh" DEFAULT_LABEL_MAP
    true).1 ⟨by decide, rfl⟩

theorem pushItems_length_le (maxPRs : Nat) :
    ∀ (items : List RawItem) (out : List PR), out.length < maxPRs →
      (pushItems maxPRs items out).length ≤ maxPRs := by
  intro items
  induction items with
  | nil =>
    intro out h
    exact Nat.le_of_lt h
  | cons it rest ih =>
    intro out h
    simp only [pushItems]
    by_cases hc : maxPRs ≤ (out ++ [normalizeItem it]).length
    · rw [if_pos hc]
      simp only [List.length_append, List.length_singleton]
      omega
    · rw [if_neg hc]
      apply ih
      simp only [List.length_append, List.length_singleton] at hc ⊢
      omega

theorem collectPages_length_le (maxPRs : Nat) :
    ∀ (pages : List (List RawItem)) (out : List PR), out.length ≤ maxPRs →
      (collectPages maxPRs pages out).length ≤ maxPRs := by
  intro pages
  induction pages with
  | nil =>
    intro out h
    exact h
  | cons items rest ih =>
    intro out h
    simp only [collectPages]
    by_cases h1 : maxPRs ≤ out.length
    · rw [if_pos h1]
      exact h
    · rw [if_neg h1]
      by_cases h2 : (items.length == 0) = true
      · rw [if_pos h2]
        exact h
      · rw [if_neg h2]
        have hlt : out.length < maxPRs := by omega
        have h3 := pushItems_length_le maxPRs items out hlt
        by_cases h4 : items.length < 100
        · rw [if_pos h4]
          exact h3
        · rw [if_neg h4]
          exact ih _ h3

/-- C9: for every sequence of search pages and every cap, the collector's
final output holds at most `maxPRs` records and is sorted ascending by item
number — the API's own return order never reaches the final presentation. -/
theorem c9_collector_sorted_capped (pages : List (List RawItem)) (maxPRs : Nat) :
    (searchMergedPRs pages maxPRs).length ≤ maxPRs ∧
    (searchMergedPRs pages maxPRs).Pairwise (fun a b => a.number ≤ b.number) := by
  constructor
  · rw [searchMergedPRs, List.length_mergeSort]
    exact collectPages_length_le maxPRs pages [] (by simp)
  · have h : (searchMergedPRs pages maxPRs).Pairwise (fun a b => prLE a b = true) := by
      apply List.sorted_mergeSort
      · intro a b c hab hbc
        simp [prLE] at *
        omega
      · intro a b
        simp [prLE]
        omega
    exact h.imp (by intro a b hab; simpa [prLE] using hab)

/-- C1 amended: on a tag-push, the baseline is the derived previous tag's
resolved commit timestamp when one exists and the lookback fallback when
none does; on a non-tag run the baseline is the newest tag's own resolved
commit timestamp — even with two or more tags, where `previousTag` is set
to the second-newest tag — with a single tag its timestamp, and with no
tags the lookback fallback. -/
theorem c1_baseline_amended (env : ResolverEnv) (ctx : TriggerCtx) (tags : List String) :
    (optStrTruthy (tagPushTag ctx) = true →
      (∀ p, (resolveWindow env ctx tags).previousTag = some p →
        (resolveWindow env ctx tags).baselineISO = env.tagDate p) ∧
      ((resolveWindow env ctx tags).previousTag = none →
        (resolveWindow env ctx tags).baselineISO = env.lookbackISO)) ∧
    (optStrTruthy (tagPushTag ctx) = false →
      (∀ t0 t1 rest, tags = t0 :: t1 :: rest →
        (resolveWindow env ctx tags).currentTag = some t0 ∧
        (resolveWindow env ctx tags).previousTag = some t1 ∧
        (resolveWindow env ctx tags).baselineISO = env.tagDate t0) ∧
      (∀ t0, tags = [t0] →
        (resolveWindow env ctx tags).currentTag = some t0 ∧
        (resolveWindow env ctx tags).previousTag = none ∧
        (resolveWindow env ctx tags).baselineISO = env.tagDate t0) ∧
      (tags = [] →
        (resolveWindow env ctx tags).baselineISO = env.lookbackISO)) := by
  constructor
  · intro htp
    simp only [resolveWindow, htp, if_true]
    rcases h1 : tags.findIdx? (fun t => t == (tagPushTag ctx).getD "") with _ | i
    · simp [h1]
    · rcases h2 : tags[i + 1]? with _ | p
      · simp [h1, h2]
      · simp [h1, h2]
  · intro htp
    rcases tags with _ | ⟨t0, _ | ⟨t1, rest⟩⟩
    · simp [resolveWindow, htp]
    · simp [resolveWindow, htp]
    · simp [resolveWindow, htp]

/-- C1 amended witness: manual run over `[v2, v1]` — previous tag is set to
`v1` while the baseline is `v2`'s commit date. -/
theorem c1_baseline_amended_witness :
    optStrTruthy (tagPushTag manualCtx) = false ∧
    ((resolveWindow testEnv manualCtx ["v2", "v1"]).currentTag = some "v2" ∧
      (resolveWindow testEnv manualCtx ["v2", "v1"]).previousTag = some "v1" ∧
      (resolveWindow testEnv manualCtx ["v2", "v1"]).baselineISO = testEnv.tagDate "v2") :=
  ⟨by decide,
    ((c1_baseline_amended testEnv manualCtx ["v2", "v1"]).2 (by decide)).1 "v2" "v1" [] rfl⟩

/-- C2 amended: when a pushed tag is absent from the fetched tag history,
the resolver logs the recoverable warning but keeps the pushed tag as
`currentTag`, derives no previous tag, and uses the lookback fallback as
the baseline — it does not re-run the non-tag-push (latest-tag) logic. -/
theorem c2_missing_tag_amended (env : ResolverEnv) (ctx : TriggerCtx) (tags : List String)
    (htp : optStrTruthy (tagPushTag ctx) = true)
    (hmiss : tags.findIdx? (fun t => t == (tagPushTag ctx).getD "") = none) :
    (resolveWindow env ctx tags).warnedNotFound = true ∧
    (resolveWindow env ctx tags).currentTag = tagPushTag ctx ∧
    (resolveWindow env ctx tags).previousTag = none ∧
    (resolveWindow env ctx tags).baselineISO = env.lookbackISO := by
  have hct : tagPushTag ctx = some ((tagPushTag ctx).getD "") := by
    cases hc : tagPushTag ctx with
    | none => rw [hc] at htp; cases htp
    | some s => rfl
  simp only [resolveWindow, htp, if_true, hmiss]
  exact ⟨by trivial, hct.symm, by trivial, by trivial⟩

/-- C2 amended witness: push of the unknown tag `v9` over history
`[v2, v1]`. -/
theorem c2_missing_tag_amended_witness :
    (resolveWindow testEnv pushCtxV9 ["v2", "v1"]).warnedNotFound = true ∧
    (resolveWindow testEnv pushCtxV9 ["v2", "v1"]).currentTag = tagPushTag pushCtxV9 ∧
    (resolveWindow testEnv pushCtxV9 ["v2", "v1"]).previousTag = none ∧
    (resolveWindow testEnv pushCtxV9 ["v2", "v1"]).baselineISO = testEnv.lookbackISO :=
  c2_missing_tag_amended testEnv pushCtxV9 ["v2", "v1"] (by decide) (by decide)

end ReleaseNotes
